import Mathlib

set_option maxHeartbeats 1600000

/-!
Shallow embedding of kitty's `send-text` remote command
(`kitty/rc/send_text.py`) and of the sRGB lookup-table generator
(`gen-srgb-lut.py`), together with proofs of the specification's claims.

Protocol strings (payload `data` fields) are modelled as `List Char`
(Python `str` is a sequence of code points, and all slicing in the source
is code-point slicing).  Machine-level byte strings are `List Nat`
(each entry `< 256`).  The host's mutable global state (`sessions_map`,
the timer subsystem, per-window render flags, `write_to_child` effects)
is modelled as an explicit record `KState` threaded through the
operations; a raised Python exception is an `Option PyErr` paired with
the state reached at the raise point (side effects before a raise
persist, as they do for the global state in the source).
-/

namespace Kitty

/-- Session record (class `Session` in `send_text.py`): the session id,
the member window ids (`window_ids`, a Python `set`, kept here as a
duplicate-free list), and the id of the outstanding expiry timer
(`timer_id`; `0` means no timer, the source's convention). -/
structure Session where
  id : String
  window_ids : List Nat
  timer_id : Nat
deriving DecidableEq

/-- An outstanding timer registered through `add_timer`: its handle,
the session id that its `clear_unfocused_cursors` callback would purge,
and the interval it was scheduled with. -/
structure Timer where
  id : Nat
  sid : String
  interval : Nat
deriving DecidableEq

/-- One remote-command payload as read through `payload_get` in
`response_from_kitty`: the `match`, `match_tab`, `all`,
`exclude_active`, `data` and `session_id` fields.  An empty string
models an absent / falsy `match`, `match_tab` or `session_id`.
The field `match_win` is the payload's `match` key (`match` is a
reserved word in Lean). -/
structure Payload where
  match_win : String
  match_tab : String
  all : Bool
  exclude_active : Bool
  data : List Char
  session_id : String
deriving DecidableEq

/-- The decoded `data` local variable of `response_from_kitty`:
either raw bytes (from the `text` or `base64` encodings) or a
window-system key event (from `kitty-key`). -/
inductive DecodedData where
  | bytes (b : List Nat)
  | key (k : Nat)
deriving DecidableEq

/-- The Python exceptions that `response_from_kitty` can raise:
`MatchError` (with the predicate and the kind of object matched),
`TypeError` (unknown data encoding), `ValueError` (undecodable key
event), `binascii.Error` (bad base64), and `UnboundLocalError`
(reading the local `data` when no branch assigned it). -/
inductive PyErr where
  | matchError (spec : String) (what : String)
  | typeError
  | valueError
  | binasciiError
  | unboundLocal
deriving DecidableEq

/-- The host window/tab registry (`boss`), an external collaborator:
the ordered window ids of `boss.all_windows`, the `boss.active_window`
(identified by id; `none` models Python `None`), the key set of
`boss.window_id_map` (`registry`), and the opaque matching predicates
`match_windows` and `match_tabs` (a tab is its list of member window
ids). -/
structure Boss where
  all_windows : List Nat
  active_window : Option Nat
  registry : List Nat
  match_windows : String → List Nat
  match_tabs : String → List (List Nat)

/-- Remaining external collaborators of `response_from_kitty`:
`base64.standard_b64decode` (`none` models a raised `binascii.Error`),
`decode_key_event_as_window_system_key` (`none` models Python `None`),
per-window key re-encoding `w.encoded_key` (an empty list models a
falsy encoding), and the `cursor_stop_blinking_after` option (`0`
models the falsy/unset value). -/
structure Ext where
  b64decode : List Char → Option (List Nat)
  decode_key : List Nat → Option Nat
  encoded_key : Nat → Nat → List Nat
  cursor_stop_blinking_after : Nat

/-- The mutable host-side state touched by `send_text.py`: the global
`sessions_map`, the set of outstanding timers together with the next
fresh timer handle, every window's `screen.render_unfocused_cursor`
flag, the registered `actions_on_close` hooks (window id, session id),
and the ordered log of `write_to_child` calls (window id, bytes). -/
structure KState where
  sessions_map : List (String × Session)
  timers : List Timer
  next_timer : Nat
  flags : Nat → Nat
  close_hooks : List (Nat × String)
  writes : List (Nat × List Nat)

/-- Python `str.partition(':')` restricted to the two components the
source uses: the text before the first `':'` and the text after it
(both empty-suffix when there is no `':'`, matching
`partition`'s `(whole, '', '')` result). -/
def partitionColon : List Char → List Char × List Char
  | [] => ([], [])
  | c :: rest =>
    if c = ':' then ([], rest)
    else
      let p := partitionColon rest
      (c :: p.1, p.2)

/-- UTF-8 encoding of a single code point (Python `str.encode('utf-8')`
acts code point by code point). -/
def utf8Bytes (c : Char) : List Nat :=
  let n := c.toNat
  if n < 0x80 then [n]
  else if n < 0x800 then [0xC0 + n / 64, 0x80 + n % 64]
  else if n < 0x10000 then [0xE0 + n / 4096, 0x80 + (n / 64) % 64, 0x80 + n % 64]
  else [0xF0 + n / 262144, 0x80 + (n / 4096) % 64, 0x80 + (n / 64) % 64, 0x80 + n % 64]

/-- Python `q.encode('utf-8')` on a code-point list. -/
def strBytes (l : List Char) : List Nat :=
  (l.map utf8Bytes).flatten

/-- The standard base64 alphabet, for `base64.standard_b64encode`. -/
def b64chars : List Char :=
  "ABCDEFGHIJKLMNOPQRSTUVWXYZabcdefghijklmnopqrstuvwxyz0123456789+/".toList

/-- Character of the standard base64 alphabet at a 6-bit index. -/
def b64char (n : Nat) : Char :=
  b64chars.getD n 'A'

/-- Python `base64.standard_b64encode` on a byte list (used by the
`file_pipe` and non-tty `pipe` chunk sources). -/
def b64encode : List Nat → List Char
  | [] => []
  | [a] => [b64char (a / 4), b64char (a % 4 * 16), '=', '=']
  | [a, b] => [b64char (a / 4), b64char (a % 4 * 16 + b / 16), b64char (b % 16 * 4), '=']
  | a :: b :: c :: rest =>
    [b64char (a / 4), b64char (a % 4 * 16 + b / 16), b64char (b % 16 * 4 + c / 64),
      b64char (c % 64)] ++ b64encode rest

/-- Lookup in the global `sessions_map` dict (first matching key). -/
def alookup (k : String) : List (String × Session) → Option Session
  | [] => none
  | (k2, v) :: rest => if k2 = k then some v else alookup k rest

/-- Update the value stored under a key of `sessions_map` in place
(Python mutates the shared `Session` object; here the entry is
rewritten). -/
def aupdate (k : String) (f : Session → Session) : List (String × Session) → List (String × Session)
  | [] => []
  | (k2, v) :: rest => if k2 = k then (k2, f v) :: rest else (k2, v) :: aupdate k f rest

/-- Python `sessions_map.pop(sid, None)`: drop the entry under a key. -/
def aremove (k : String) : List (String × Session) → List (String × Session)
  | [] => []
  | (k2, v) :: rest => if k2 = k then rest else (k2, v) :: aremove k rest

/-- Constructor `Session(id)`: fresh session with no members and no
timer. -/
def new_session (sid : String) : Session :=
  { id := sid, window_ids := [], timer_id := 0 }

/-- Function `clear_unfocused_cursors(sid)` from `send_text.py`:
pop the session from `sessions_map` (no-op when absent) and reset
`render_unfocused_cursor` on every member window still present in
`boss.window_id_map`. -/
def clear_unfocused_cursors (boss : Boss) (sid : String) (st : KState) : KState :=
  match alookup sid st.sessions_map with
  | none => st
  | some s =>
    { st with
      sessions_map := aremove sid st.sessions_map,
      flags := fun w => if w ∈ s.window_ids ∧ w ∈ boss.registry then 0 else st.flags w }

/-- Inner function `create_or_update_session` of `response_from_kitty`:
`sessions_map.setdefault(sid, Session(sid))`, then cancel and zero the
session's outstanding timer if it has one.  Returns the (updated)
session together with the new state. -/
def create_or_update_session (sid : String) (st : KState) : Session × KState :=
  let pick : Session × List (String × Session) :=
    match alookup sid st.sessions_map with
    | some s => (s, st.sessions_map)
    | none => (new_session sid, st.sessions_map ++ [(sid, new_session sid)])
  let s := pick.1
  if s.timer_id ≠ 0 then
    ({ s with timer_id := 0 },
      { st with
        sessions_map := aupdate sid (fun s2 => { s2 with timer_id := 0 }) pick.2,
        timers := st.timers.filter (fun t => t.id ≠ s.timer_id) })
  else
    (s, { st with sessions_map := pick.2 })

/-- Call `add_timer(partial(clear_unfocused_cursors, sid), interval,
False)`: registers a one-shot timer and returns its fresh handle. -/
def add_timer (sid : String) (interval : Nat) (st : KState) : Nat × KState :=
  (st.next_timer,
    { st with
      timers := st.timers ++ [{ id := st.next_timer, sid := sid, interval := interval }],
      next_timer := st.next_timer + 1 })

/-- The statement `s.timer_id = add_timer(partial(clear_unfocused_cursors,
sid), blink_time, False)` (used by the `start` branch and the implicit
refresh): schedule a fresh one-shot timer and record its handle in the
session's record. -/
def schedule_timer (sid : String) (interval : Nat) (st : KState) : KState :=
  let tid := (add_timer sid interval st).1
  let st2 := (add_timer sid interval st).2
  { st2 with sessions_map := aupdate sid (fun s => { s with timer_id := tid }) st2.sessions_map }

/-- The `blink_time` computation of `response_from_kitty`:
`15 if not get_options().cursor_stop_blinking_after else max(3, ...)`. -/
def blink_time (ext : Ext) : Nat :=
  if ext.cursor_stop_blinking_after = 0 then 15 else max 3 ext.cursor_stop_blinking_after

/-- Target resolution of `response_from_kitty` (lines 151-165): `all`
takes every window; otherwise the active window, overridden by a
`match` predicate, overridden by a `match_tab` predicate which raises
`MatchError(match_tab, 'tabs')` when no tab matches and otherwise
collects every window of every matched tab in order. -/
def resolve_windows (boss : Boss) (p : Payload) : Except PyErr (List (Option Nat)) :=
  if p.all then
    Except.ok (boss.all_windows.map some)
  else
    let winit : List (Option Nat) := [boss.active_window]
    let wmatched : List (Option Nat) :=
      if p.match_win ≠ "" then (boss.match_windows p.match_win).map some else winit
    if p.match_tab ≠ "" then
      if boss.match_tabs p.match_tab = [] then
        Except.error (PyErr.matchError p.match_tab "tabs")
      else
        Except.ok ((boss.match_tabs p.match_tab).flatten.map some)
    else
      Except.ok wmatched

/-- Payload decoding of `response_from_kitty` (lines 166-182): split
the data field at the first `':'` and decode according to the
encoding tag.  Returns the decoded `data` local (absent when no branch
assigned it) and the `session` local (nonempty only for the
`session` tag). -/
def parse_data (ext : Ext) (pdata : List Char) : Except PyErr (Option DecodedData × List Char) :=
  let enc := (partitionColon pdata).1
  let q := (partitionColon pdata).2
  if enc = "text".toList then
    Except.ok (some (DecodedData.bytes (strBytes q)), [])
  else if enc = "base64".toList then
    match ext.b64decode q with
    | some b => Except.ok (some (DecodedData.bytes b), [])
    | none => Except.error PyErr.binasciiError
  else if enc = "kitty-key".toList then
    match ext.b64decode q with
    | none => Except.error PyErr.binasciiError
    | some bdata =>
      match ext.decode_key bdata with
      | none => Except.error PyErr.valueError
      | some k => Except.ok (some (DecodedData.key k), [])
  else if enc = "session".toList then
    Except.ok (none, q)
  else
    Except.error PyErr.typeError

/-- The `actual_windows` generator (line 184): drop `None` entries and,
when `exclude_active` is set, drop the window that is identical to
`boss.active_window`. -/
def actual_windows (boss : Boss) (p : Payload) (windows : List (Option Nat)) : List Nat :=
  (windows.filterMap id).filter
    (fun w => !p.exclude_active || !(boss.active_window == some w))

/-- Python `set.add` on the member list: append the id unless present. -/
def insert_wid (l : List Nat) (w : Nat) : List Nat :=
  if w ∈ l then l else l ++ [w]

/-- The `session == 'end'` branch (lines 195-200): fetch/cancel via
`create_or_update_session`, clear the flag of every resolved window and
discard it from the member set, then `clear_unfocused_cursors(sid)`. -/
def do_end (boss : Boss) (sid : String) (actual : List Nat) (st : KState) : KState :=
  let st1 := (create_or_update_session sid st).2
  let st2 :=
    { st1 with
      flags := fun w => if w ∈ actual then 0 else st1.flags w,
      sessions_map :=
        aupdate sid
          (fun s => { s with window_ids := s.window_ids.filter (fun wid => !actual.contains wid) })
          st1.sessions_map }
  clear_unfocused_cursors boss sid st2

/-- The `session == 'start'` branch (lines 201-208): fetch/cancel via
`create_or_update_session`, register a close hook on the requesting
window if any, schedule a fresh expiry timer and record its handle in
the session, then set the flag of every resolved window and add it to
the member set. -/
def do_start (window : Option Nat) (sid : String) (interval : Nat)
    (actual : List Nat) (st : KState) : KState :=
  let st1 := (create_or_update_session sid st).2
  let st2 :=
    match window with
    | some wid => { st1 with close_hooks := st1.close_hooks ++ [(wid, sid)] }
    | none => st1
  let st4 := schedule_timer sid interval st2
  { st4 with
    flags := fun w => if w ∈ actual then 1 else st4.flags w,
    sessions_map :=
      aupdate sid (fun s => { s with window_ids := actual.foldl insert_wid s.window_ids })
        st4.sessions_map }

/-- The per-window body of the final dispatch loop (lines 213-222),
iterated over the resolved windows: optionally mark the window as a
session member, then deliver the decoded data.  Reading the decoded
`data` local when no branch assigned it raises `UnboundLocalError`;
a key event is re-encoded per window and skipped when the encoding is
falsy. -/
def dispatch_loop (ext : Ext) (sid : String) (datav : Option DecodedData) :
    List Nat → KState → Option PyErr × KState
  | [], st => (none, st)
  | w :: rest, st =>
    let st1 :=
      if sid ≠ "" then
        { st with
          flags := fun x => if x = w then 1 else st.flags x,
          sessions_map :=
            aupdate sid (fun s => { s with window_ids := insert_wid s.window_ids w })
              st.sessions_map }
      else st
    match datav with
    | none => (some PyErr.unboundLocal, st1)
    | some (DecodedData.key k) =>
      let kdata := ext.encoded_key w k
      let st2 :=
        if kdata ≠ [] then { st1 with writes := st1.writes ++ [(w, kdata)] } else st1
      dispatch_loop ext sid datav rest st2
    | some (DecodedData.bytes b) =>
      dispatch_loop ext sid datav rest { st1 with writes := st1.writes ++ [(w, b)] }

/-- The fall-through branch (lines 209-222): for a non-empty session id
refresh the session and schedule a fresh timer, then run the dispatch
loop over the resolved windows. -/
def do_default (ext : Ext) (sid : String) (interval : Nat) (datav : Option DecodedData)
    (actual : List Nat) (st : KState) : Option PyErr × KState :=
  let st1 :=
    if sid ≠ "" then schedule_timer sid interval (create_or_update_session sid st).2
    else st
  dispatch_loop ext sid datav actual st1

/-- Method `SendText.response_from_kitty` of `send_text.py`: resolve
the targets, decode the payload, filter to the actual windows, and run
the `end` / `start` / default branch.  The result pairs the raised
exception (if any) with the host state at return/raise time. -/
def response_from_kitty (ext : Ext) (boss : Boss) (window : Option Nat) (p : Payload)
    (st : KState) : Option PyErr × KState :=
  match resolve_windows boss p with
  | Except.error e => (some e, st)
  | Except.ok windows =>
    match parse_data ext p.data with
    | Except.error e => (some e, st)
    | Except.ok dv =>
      let datav := dv.1
      let session := dv.2
      let actual := actual_windows boss p windows
      let sid := p.session_id
      if session = "end".toList then
        (none, do_end boss sid actual st)
      else if session = "start".toList then
        (none, do_start window sid (blink_time ext) actual st)
      else
        do_default ext sid (blink_time ext) datav actual st

/-- The transport limit fixed by `message_to_kitty` (`limit = 1024`). -/
def limit : Nat := 1024

/-- Inner generator `chunks(text)` of `message_to_kitty`, applied to
the escape-expanded text (`parse_send_text_bytes(text).decode('utf-8')`,
an external expansion): slice the code-point sequence into pieces of at
most `limit` code points and emit each as a `text:`-tagged payload. -/
def chunks (ret : Payload) : List Char → List Payload
  | [] => []
  | c :: cs =>
    { ret with data := "text:".toList ++ List.take limit (c :: cs) } ::
      chunks ret (List.drop limit (c :: cs))
termination_by l => l.length
decreasing_by
  simp [List.length_drop, limit]
  omega

/-- Loop body of the tty branch of the inner generator `pipe()`:
each successful `tty.read` is decoded to text (the decoded reads are
the input here); a read containing the end-of-transmission marker
`'\x04'` is truncated at the first marker, emitted, and ends the
sequence; an empty read ends the sequence without emitting. -/
def pipe_tty_loop (ret : Payload) : List (List Char) → List Payload
  | [] => []
  | data :: rest =>
    if data = [] then []
    else if (Char.ofNat 4) ∈ data then
      [{ ret with data := "text:".toList ++ data.takeWhile (fun c => c ≠ Char.ofNat 4) }]
    else
      { ret with data := "text:".toList ++ data } :: pipe_tty_loop ret rest

/-- Loop of the non-tty branch of `pipe()`: each block read from stdin
is emitted base64-tagged; an empty read ends the sequence. -/
def pipe_stdin_loop (ret : Payload) : List (List Nat) → List Payload
  | [] => []
  | data :: rest =>
    if data = [] then []
    else
      { ret with data := "base64:".toList ++ b64encode data } :: pipe_stdin_loop ret rest

/-- Inner generator `pipe()` of `message_to_kitty`: when stdin is a
tty it first forces `ret['exclude_active'] = True` and then emits
decoded text chunks; otherwise it emits base64 chunks of the raw
stdin blocks. -/
def pipe (isatty : Bool) (ret : Payload) (tty_reads : List (List Char))
    (stdin_reads : List (List Nat)) : List Payload :=
  if isatty then
    pipe_tty_loop { ret with exclude_active := true } tty_reads
  else
    pipe_stdin_loop ret stdin_reads

/-- Python `', '.join` on a list of strings (from `gen-srgb-lut.py`). -/
def join_sep (sep : List Char) : List (List Char) → List Char
  | [] => []
  | [x] => x
  | x :: y :: rest => x ++ sep ++ join_sep sep (y :: rest)

/-- Python `str.rstrip(',')`: remove every trailing comma. -/
def rstripComma (l : List Char) : List Char :=
  (l.reverse.dropWhile (fun c => c = ',')).reverse

/-- Function `generate_srgb_lut` of `gen-srgb-lut.py`.  The parameter
`fmt i` stands for the text `'{:1.5f}'.format(to_linear(i / 255.0))`:
the decimal rendering of the floating-point lookup value, which is
floating-point arithmetic external to this embedding (the source's
format string then appends the literal `'f'`, which is kept here).
The 256 value strings are grouped 16 per line, every line gets a
trailing comma, and the last line is then right-stripped of commas. -/
def generate_srgb_lut (fmt : Nat → List Char) (lpfx : List Char) : List (List Char) :=
  let values := (List.range 256).map (fun i => fmt i ++ ['f'])
  let lines :=
    (List.range 16).map
      (fun i => lpfx ++ join_sep (", ".toList) ((values.drop (i * 16)).take 16) ++ [','])
  lines.dropLast ++ [rstripComma (lines.getLastD [])]

/-- Timer id stored for a session id in a raw `sessions_map` value. -/
def mapTid (m : List (String × Session)) (sid : String) : Option Nat :=
  (alookup sid m).map Session.timer_id

/-- Timer id stored for a session id in a state. -/
def sessTid (st : KState) (sid : String) : Option Nat :=
  mapTid st.sessions_map sid

/-- Outstanding timers whose callback would purge the given session. -/
def timers_for (sid : String) (st : KState) : List Timer :=
  st.timers.filter (fun t => t.sid == sid)

/-- Well-formedness of the timer bookkeeping: timer handles are
positive and fresh handles are really fresh, no handle is registered
twice, and every outstanding timer is the one recorded in the
`timer_id` field of its session's record. -/
def InvT (st : KState) : Prop :=
  0 < st.next_timer ∧
  (∀ t ∈ st.timers, 0 < t.id ∧ t.id < st.next_timer) ∧
  (st.timers.map Timer.id).Nodup ∧
  (∀ t ∈ st.timers, sessTid st t.sid = some t.id)

instance (st : KState) : Decidable (InvT st) := by
  unfold InvT sessTid mapTid
  infer_instance

theorem alookup_aupdate (k : String) (f : Session → Session) (m : List (String × Session))
    (sid : String) :
    alookup sid (aupdate k f m) =
      if sid = k then (alookup k m).map f else alookup sid m := by
  induction m with
  | nil => by_cases h : sid = k <;> simp [aupdate, alookup, h]
  | cons kv rest ih =>
    obtain ⟨k2, v⟩ := kv
    by_cases h1 : k2 = k
    · by_cases h2 : sid = k
      · simp [aupdate, alookup, h1, h2, h1.trans h2.symm]
      · have h3 : ¬k2 = sid := fun hh => h2 (hh ▸ h1)
        simp [aupdate, alookup, h1, h2, h3, Ne.symm h2]
    · by_cases h2 : k2 = sid
      · subst h2
        simp [aupdate, alookup, h1]
      · simp [aupdate, alookup, h1, h2, ih]

theorem alookup_aremove_ne (k : String) (m : List (String × Session)) (sid : String)
    (h : sid ≠ k) : alookup sid (aremove k m) = alookup sid m := by
  induction m with
  | nil => simp [aremove, alookup]
  | cons kv rest ih =>
    obtain ⟨k2, v⟩ := kv
    by_cases h1 : k2 = k
    · have h3 : ¬k2 = sid := fun hh => h (hh ▸ h1)
      simp [aremove, alookup, h1, h3, Ne.symm h]
    · by_cases h2 : k2 = sid
      · subst h2
        simp [aremove, alookup, h1]
      · simp [aremove, alookup, h1, h2, ih]

theorem alookup_append_of_none (k : String) (m l : List (String × Session))
    (h : alookup k m = none) : alookup k (m ++ l) = alookup k l := by
  induction m with
  | nil => simp
  | cons kv rest ih =>
    obtain ⟨k2, v⟩ := kv
    by_cases h1 : k2 = k
    · rw [alookup, if_pos h1] at h
      exact Option.noConfusion h
    · rw [alookup, if_neg h1] at h
      rw [List.cons_append, alookup, if_neg h1]
      exact ih h

theorem aupdate_append_absent (k : String) (f : Session → Session)
    (m : List (String × Session)) (v : Session) (h : alookup k m = none) :
    aupdate k f (m ++ [(k, v)]) = m ++ [(k, f v)] := by
  induction m with
  | nil => simp [aupdate]
  | cons kv rest ih =>
    obtain ⟨k2, v2⟩ := kv
    by_cases h1 : k2 = k
    · rw [alookup, if_pos h1] at h
      exact Option.noConfusion h
    · rw [alookup, if_neg h1] at h
      rw [List.cons_append, aupdate, if_neg h1, ih h, List.cons_append]

theorem aremove_append_absent (k : String) (m : List (String × Session)) (v : Session)
    (h : alookup k m = none) : aremove k (m ++ [(k, v)]) = m := by
  induction m with
  | nil => simp [aremove]
  | cons kv rest ih =>
    obtain ⟨k2, v2⟩ := kv
    by_cases h1 : k2 = k
    · rw [alookup, if_pos h1] at h
      exact Option.noConfusion h
    · rw [alookup, if_neg h1] at h
      rw [List.cons_append, aremove, if_neg h1, ih h]

theorem mapTid_aupdate_tid_preserving (k : String) (f : Session → Session)
    (hf : ∀ s, (f s).timer_id = s.timer_id) (m : List (String × Session)) (sid : String) :
    mapTid (aupdate k f m) sid = mapTid m sid := by
  unfold mapTid
  rw [alookup_aupdate]
  by_cases h : sid = k
  · subst h
    cases halookup : alookup sid m <;> simp [Option.map, hf]
  · simp [h]

theorem length_le_one_of_nodup_const {l : List Nat} {c : Nat} (hn : l.Nodup)
    (hc : ∀ a ∈ l, a = c) : l.length ≤ 1 := by
  match l with
  | [] => simp
  | [x] => simp
  | x :: y :: r =>
    exfalso
    have hx := hc x (by simp)
    have hy := hc y (by simp)
    have hne := (List.nodup_cons.mp hn).1
    rw [hx, hy] at hne
    simp at hne

theorem invT_timers_le_one {st : KState} (h : InvT st) (sid : String) :
    (timers_for sid st).length ≤ 1 := by
  obtain ⟨-, -, hnd, hlink⟩ := h
  unfold timers_for
  cases hc : sessTid st sid with
  | none =>
    have : st.timers.filter (fun t => t.sid == sid) = [] := by
      rw [List.filter_eq_nil_iff]
      intro t ht hts
      have := hlink t ht
      rw [beq_iff_eq] at hts
      rw [hts, hc] at this
      exact Option.noConfusion this
    simp [this]
  | some c =>
    have hsub : ((st.timers.filter (fun t => t.sid == sid)).map Timer.id).Sublist
        (st.timers.map Timer.id) := List.Sublist.map _ (List.filter_sublist _)
    have hnd2 := hsub.nodup hnd
    have hconst : ∀ a ∈ (st.timers.filter (fun t => t.sid == sid)).map Timer.id, a = c := by
      intro a ha
      obtain ⟨t, ht, rfl⟩ := List.mem_map.mp ha
      obtain ⟨ht1, ht2⟩ := List.mem_filter.mp ht
      have := hlink t ht1
      rw [beq_iff_eq] at ht2
      rw [ht2, hc] at this
      exact (Option.some_inj.mp this).symm
    have := length_le_one_of_nodup_const hnd2 hconst
    simpa using this

theorem alookup_append_of_some (k : String) (m l : List (String × Session)) (v : Session)
    (h : alookup k m = some v) : alookup k (m ++ l) = some v := by
  induction m with
  | nil => exact Option.noConfusion h
  | cons kv rest ih =>
    obtain ⟨k2, v2⟩ := kv
    by_cases h1 : k2 = k
    · rw [alookup, if_pos h1] at h
      rw [List.cons_append, alookup, if_pos h1]
      exact h
    · rw [alookup, if_neg h1] at h
      rw [List.cons_append, alookup, if_neg h1]
      exact ih h

theorem invT_of_parts {st st' : KState} (h : InvT st)
    (hn : st'.next_timer = st.next_timer) (ht : st'.timers = st.timers)
    (hs : ∀ sid, sessTid st' sid = sessTid st sid) : InvT st' := by
  obtain ⟨a, b, c, d⟩ := h
  refine ⟨by rw [hn]; exact a, ?_, by rw [ht]; exact c, ?_⟩
  · intro t htm
    rw [ht] at htm
    rw [hn]
    exact b t htm
  · intro t htm
    rw [ht] at htm
    rw [hs]
    exact d t htm

theorem cu_fields (sid : String) (st : KState) :
    (create_or_update_session sid st).2.next_timer = st.next_timer ∧
    (create_or_update_session sid st).2.flags = st.flags ∧
    (create_or_update_session sid st).2.close_hooks = st.close_hooks ∧
    (create_or_update_session sid st).2.writes = st.writes := by
  unfold create_or_update_session
  cases halookup : alookup sid st.sessions_map <;> dsimp <;> split <;> simp

theorem cu_spec {st : KState} (h : InvT st) (sid : String) :
    InvT (create_or_update_session sid st).2 ∧
    (∀ t ∈ (create_or_update_session sid st).2.timers, t.sid ≠ sid) ∧
    sessTid (create_or_update_session sid st).2 sid = some 0 := by
  obtain ⟨h1, h2, h3, h4⟩ := h
  have hnosid : sessTid st sid = none ∨ sessTid st sid = some 0 →
      ∀ t ∈ st.timers, t.sid ≠ sid := by
    intro hc t ht hts
    have hl := h4 t ht
    rw [hts] at hl
    rcases hc with hc | hc
    · rw [hc] at hl
      exact Option.noConfusion hl
    · rw [hc] at hl
      have : (0 : Nat) = t.id := Option.some_inj.mp hl
      have := h2 t ht
      omega
  unfold create_or_update_session
  cases halookup : alookup sid st.sessions_map with
  | none =>
    dsimp
    have hzero : ¬((new_session sid).timer_id ≠ 0) := by simp [new_session]
    rw [if_neg hzero]
    have hts : ∀ t ∈ st.timers, t.sid ≠ sid := by
      refine hnosid (Or.inl ?_)
      simp [sessTid, mapTid, halookup]
    refine ⟨⟨h1, h2, h3, ?_⟩, hts, ?_⟩
    · intro t ht
      have hlk := h4 t ht
      unfold sessTid mapTid at hlk ⊢
      dsimp
      cases hml : alookup t.sid st.sessions_map with
      | none => rw [hml] at hlk; exact Option.noConfusion hlk
      | some v =>
        rw [alookup_append_of_some _ _ _ _ hml]
        rw [hml] at hlk
        exact hlk
    · unfold sessTid mapTid
      dsimp
      rw [alookup_append_of_none _ _ _ halookup]
      simp [alookup, new_session]
  | some s =>
    dsimp
    by_cases hz : s.timer_id ≠ 0
    · rw [if_pos hz]
      dsimp
      have htsid : ∀ t ∈ st.timers.filter (fun t => t.id ≠ s.timer_id), t.sid ≠ sid := by
        intro t ht hts
        obtain ⟨htm, htd⟩ := List.mem_filter.mp ht
        have hl := h4 t htm
        rw [hts] at hl
        unfold sessTid mapTid at hl
        rw [halookup] at hl
        have : s.timer_id = t.id := Option.some_inj.mp hl
        simp [this] at htd
      refine ⟨⟨h1, ?_, ?_, ?_⟩, htsid, ?_⟩
      · intro t ht
        exact h2 t ((List.filter_sublist _).subset ht)
      · exact (List.Sublist.map _ (List.filter_sublist _)).nodup h3
      · intro t ht
        have htm := (List.filter_sublist _).subset ht
        have hne := htsid t ht
        have hl := h4 t htm
        unfold sessTid mapTid at hl ⊢
        dsimp
        rw [alookup_aupdate, if_neg hne]
        exact hl
      · unfold sessTid mapTid
        dsimp
        rw [alookup_aupdate, if_pos rfl, halookup]
        simp
    · rw [if_neg hz]
      dsimp
      push_neg at hz
      have hts : ∀ t ∈ st.timers, t.sid ≠ sid := by
        refine hnosid (Or.inr ?_)
        simp [sessTid, mapTid, halookup, hz]
      exact ⟨⟨h1, h2, h3, h4⟩, hts, by simp [sessTid, mapTid, halookup, hz]⟩

theorem schedule_spec {st : KState} (h : InvT st) (sid : String) (iv : Nat)
    (hno : ∀ t ∈ st.timers, t.sid ≠ sid) (hsm : (alookup sid st.sessions_map).isSome) :
    InvT (schedule_timer sid iv st) ∧
    timers_for sid (schedule_timer sid iv st) =
      [{ id := st.next_timer, sid := sid, interval := iv }] ∧
    (schedule_timer sid iv st).flags = st.flags ∧
    (schedule_timer sid iv st).writes = st.writes ∧
    (schedule_timer sid iv st).close_hooks = st.close_hooks := by
  obtain ⟨h1, h2, h3, h4⟩ := h
  obtain ⟨s, hs⟩ := Option.isSome_iff_exists.mp hsm
  unfold schedule_timer add_timer
  dsimp
  refine ⟨⟨by dsimp; omega, ?_, ?_, ?_⟩, ?_, rfl, rfl, rfl⟩
  · intro t ht
    dsimp at ht ⊢
    rcases List.mem_append.mp ht with ht | ht
    · have := h2 t ht
      omega
    · rw [List.mem_singleton.mp ht]
      dsimp
      omega
  · rw [List.map_append]
    rw [List.nodup_append]
    refine ⟨h3, by simp, ?_⟩
    intro a ha
    simp only [List.map_cons, List.map_nil, List.mem_singleton]
    obtain ⟨t, ht, rfl⟩ := List.mem_map.mp ha
    have := h2 t ht
    intro hc
    rw [hc] at this
    omega
  · intro t ht
    rcases List.mem_append.mp ht with ht | ht
    · have hne := hno t ht
      have hl := h4 t ht
      unfold sessTid mapTid at hl ⊢
      dsimp
      rw [alookup_aupdate, if_neg hne]
      exact hl
    · rw [List.mem_singleton.mp ht]
      unfold sessTid mapTid
      dsimp
      rw [alookup_aupdate, if_pos rfl, hs]
      rfl
  · unfold timers_for
    dsimp
    rw [List.filter_append]
    have hleft : st.timers.filter (fun t => t.sid == sid) = [] := by
      rw [List.filter_eq_nil_iff]
      intro t ht
      simp [hno t ht]
    rw [hleft]
    simp

theorem dispatch_preserves (ext : Ext) (sid : String) (dv : Option DecodedData) :
    ∀ (l : List Nat) (st : KState),
      (dispatch_loop ext sid dv l st).2.timers = st.timers ∧
      (dispatch_loop ext sid dv l st).2.next_timer = st.next_timer ∧
      (dispatch_loop ext sid dv l st).2.close_hooks = st.close_hooks ∧
      (∀ sid2, sessTid (dispatch_loop ext sid dv l st).2 sid2 = sessTid st sid2) := by
  intro l
  induction l with
  | nil => intro st; simp [dispatch_loop]
  | cons w rest ih =>
    intro st
    have hstep : ∀ (stx : KState),
        (if sid ≠ "" then
          { stx with
            flags := fun x => if x = w then 1 else stx.flags x,
            sessions_map :=
              aupdate sid (fun s => { s with window_ids := insert_wid s.window_ids w })
                stx.sessions_map }
        else stx).timers = stx.timers ∧
        (if sid ≠ "" then
          { stx with
            flags := fun x => if x = w then 1 else stx.flags x,
            sessions_map :=
              aupdate sid (fun s => { s with window_ids := insert_wid s.window_ids w })
                stx.sessions_map }
        else stx).next_timer = stx.next_timer ∧
        (if sid ≠ "" then
          { stx with
            flags := fun x => if x = w then 1 else stx.flags x,
            sessions_map :=
              aupdate sid (fun s => { s with window_ids := insert_wid s.window_ids w })
                stx.sessions_map }
        else stx).close_hooks = stx.close_hooks ∧
        (∀ sid2, sessTid
          (if sid ≠ "" then
            { stx with
              flags := fun x => if x = w then 1 else stx.flags x,
              sessions_map :=
                aupdate sid (fun s => { s with window_ids := insert_wid s.window_ids w })
                  stx.sessions_map }
          else stx) sid2 = sessTid stx sid2) := by
      intro stx
      split
      · refine ⟨rfl, rfl, rfl, ?_⟩
        intro sid2
        unfold sessTid
        dsimp
        exact mapTid_aupdate_tid_preserving sid
          (fun s => { s with window_ids := insert_wid s.window_ids w })
          (fun s => rfl) stx.sessions_map sid2
      · exact ⟨rfl, rfl, rfl, fun _ => rfl⟩
    simp only [dispatch_loop]
    cases dv with
    | none =>
      dsimp
      exact hstep st
    | some d =>
      cases d with
      | bytes b =>
        dsimp
        obtain ⟨i1, i2, i3, i4⟩ := ih _
        obtain ⟨s1, s2, s3, s4⟩ := hstep st
        refine ⟨?_, ?_, ?_, ?_⟩
        · rw [i1]; exact s1
        · rw [i2]; exact s2
        · rw [i3]; exact s3
        · intro sid2
          rw [i4 sid2]
          exact s4 sid2
      | key k =>
        dsimp
        obtain ⟨i1, i2, i3, i4⟩ := ih _
        obtain ⟨s1, s2, s3, s4⟩ := hstep st
        refine ⟨?_, ?_, ?_, ?_⟩
        · rw [i1]
          split <;> [exact s1; exact s1]
        · rw [i2]
          split <;> [exact s2; exact s2]
        · rw [i3]
          split <;> [exact s3; exact s3]
        · intro sid2
          rw [i4 sid2]
          split <;> [exact s4 sid2; exact s4 sid2]

theorem clear_spec (boss : Boss) (sid : String) {st : KState} (h : InvT st)
    (hno : ∀ t ∈ st.timers, t.sid ≠ sid) :
    InvT (clear_unfocused_cursors boss sid st) ∧
    (clear_unfocused_cursors boss sid st).timers = st.timers ∧
    (clear_unfocused_cursors boss sid st).next_timer = st.next_timer ∧
    (clear_unfocused_cursors boss sid st).writes = st.writes ∧
    (clear_unfocused_cursors boss sid st).close_hooks = st.close_hooks := by
  obtain ⟨h1, h2, h3, h4⟩ := h
  unfold clear_unfocused_cursors
  cases halookup : alookup sid st.sessions_map with
  | none => exact ⟨⟨h1, h2, h3, h4⟩, rfl, rfl, rfl, rfl⟩
  | some s =>
    dsimp
    refine ⟨⟨h1, h2, h3, ?_⟩, rfl, rfl, rfl, rfl⟩
    intro t ht
    have hl := h4 t ht
    unfold sessTid mapTid at hl ⊢
    dsimp
    rw [alookup_aremove_ne _ _ _ (hno t ht)]
    exact hl

theorem do_end_spec {st : KState} (h : InvT st) (boss : Boss) (sid : String)
    (actual : List Nat) :
    InvT (do_end boss sid actual st) ∧
    (∀ t ∈ (do_end boss sid actual st).timers, t.sid ≠ sid) := by
  obtain ⟨hi, hno, _⟩ := cu_spec h sid
  unfold do_end
  dsimp
  set st1 := (create_or_update_session sid st).2 with hst1
  set st2 : KState :=
    { st1 with
      flags := fun w => if w ∈ actual then 0 else st1.flags w,
      sessions_map :=
        aupdate sid
          (fun s => { s with window_ids := s.window_ids.filter (fun wid => !actual.contains wid) })
          st1.sessions_map } with hst2
  have h2 : InvT st2 := by
    refine invT_of_parts hi rfl rfl ?_
    intro sid2
    unfold sessTid
    exact mapTid_aupdate_tid_preserving sid
      (fun s => { s with window_ids := s.window_ids.filter (fun wid => !actual.contains wid) })
      (fun s => rfl) st1.sessions_map sid2
  have hno2 : ∀ t ∈ st2.timers, t.sid ≠ sid := hno
  obtain ⟨hc1, hc2, -, -, -⟩ := clear_spec boss sid h2 hno2
  refine ⟨hc1, ?_⟩
  intro t ht
  rw [hc2] at ht
  exact hno2 t ht

theorem do_start_spec {st : KState} (h : InvT st) (window : Option Nat) (sid : String)
    (iv : Nat) (actual : List Nat) :
    InvT (do_start window sid iv actual st) ∧
    timers_for sid (do_start window sid iv actual st) =
      [{ id := st.next_timer, sid := sid, interval := iv }] := by
  obtain ⟨hi, hno, hs0⟩ := cu_spec h sid
  obtain ⟨hf1, -, -, -⟩ := cu_fields sid st
  unfold do_start
  dsimp
  set st1 := (create_or_update_session sid st).2 with hst1
  set st2 : KState :=
    (match window with
    | some wid => { st1 with close_hooks := st1.close_hooks ++ [(wid, sid)] }
    | none => st1) with hst2
  have h2 : InvT st2 := by
    refine invT_of_parts hi ?_ ?_ ?_ <;> rw [hst2] <;> cases window <;> simp [sessTid]
  have hno2 : ∀ t ∈ st2.timers, t.sid ≠ sid := by
    have : st2.timers = st1.timers := by rw [hst2]; cases window <;> rfl
    rw [this]
    exact hno
  have hsm2 : (alookup sid st2.sessions_map).isSome := by
    have hmap : st2.sessions_map = st1.sessions_map := by rw [hst2]; cases window <;> rfl
    rw [hmap]
    unfold sessTid mapTid at hs0
    cases hl : alookup sid st1.sessions_map
    · rw [hl] at hs0; exact Option.noConfusion hs0
    · rfl
  have hnext2 : st2.next_timer = st.next_timer := by
    have : st2.next_timer = st1.next_timer := by rw [hst2]; cases window <;> rfl
    rw [this, hst1, hf1]
  obtain ⟨hs1, hs2, -, -, -⟩ := schedule_spec h2 sid iv hno2 hsm2
  set st4 := schedule_timer sid iv st2 with hst4
  refine ⟨?_, ?_⟩
  · refine invT_of_parts hs1 rfl rfl ?_
    intro sid2
    unfold sessTid
    dsimp
    exact mapTid_aupdate_tid_preserving sid
      (fun s => { s with window_ids := actual.foldl insert_wid s.window_ids })
      (fun s => rfl) st4.sessions_map sid2
  · have : timers_for sid
        { st4 with
          flags := fun w => if w ∈ actual then 1 else st4.flags w,
          sessions_map :=
            aupdate sid (fun s => { s with window_ids := actual.foldl insert_wid s.window_ids })
              st4.sessions_map } = timers_for sid st4 := rfl
    rw [this, hs2, hnext2]

theorem invT_do_default {st : KState} (h : InvT st) (ext : Ext) (sid : String) (iv : Nat)
    (dv : Option DecodedData) (actual : List Nat) :
    InvT (do_default ext sid iv dv actual st).2 := by
  unfold do_default
  dsimp
  split
  · rename_i hsid
    obtain ⟨hi, hno, hs0⟩ := cu_spec h sid
    have hsm : (alookup sid (create_or_update_session sid st).2.sessions_map).isSome := by
      unfold sessTid mapTid at hs0
      cases hl : alookup sid (create_or_update_session sid st).2.sessions_map
      · rw [hl] at hs0; exact Option.noConfusion hs0
      · rfl
    obtain ⟨hs1, -, -, -, -⟩ := schedule_spec hi sid iv hno hsm
    obtain ⟨d1, d2, -, d4⟩ := dispatch_preserves ext sid dv actual _
    exact invT_of_parts hs1 d2 d1 d4
  · obtain ⟨d1, d2, -, d4⟩ := dispatch_preserves ext sid dv actual st
    exact invT_of_parts h d2 d1 d4

theorem invT_response {st : KState} (h : InvT st) (ext : Ext) (boss : Boss)
    (window : Option Nat) (p : Payload) :
    InvT (response_from_kitty ext boss window p st).2 := by
  unfold response_from_kitty
  cases hres : resolve_windows boss p with
  | error e => exact h
  | ok ws =>
    cases hpd : parse_data ext p.data with
    | error e => exact h
    | ok dv =>
      dsimp
      split
      · exact (do_end_spec h boss p.session_id (actual_windows boss p ws)).1
      · split
        · exact (do_start_spec h window p.session_id (blink_time ext)
            (actual_windows boss p ws)).1
        · exact invT_do_default h ext p.session_id (blink_time ext) dv.1
            (actual_windows boss p ws)

theorem partitionColon_text (tx : List Char) :
    partitionColon ("text:".toList ++ tx) = ("text".toList, tx) := rfl

theorem parse_data_text (ext : Ext) (tx : List Char) :
    parse_data ext ("text:".toList ++ tx) =
      Except.ok (some (DecodedData.bytes (strBytes tx)), []) := rfl

theorem response_end {boss : Boss} {p : Payload} {ws : List (Option Nat)}
    (hres : resolve_windows boss p = Except.ok ws) (hd : p.data = "session:end".toList)
    (ext : Ext) (window : Option Nat) (st : KState) :
    response_from_kitty ext boss window p st =
      (none, do_end boss p.session_id (actual_windows boss p ws) st) := by
  unfold response_from_kitty
  rw [hres, hd]
  rfl

theorem response_start {boss : Boss} {p : Payload} {ws : List (Option Nat)}
    (hres : resolve_windows boss p = Except.ok ws) (hd : p.data = "session:start".toList)
    (ext : Ext) (window : Option Nat) (st : KState) :
    response_from_kitty ext boss window p st =
      (none, do_start window p.session_id (blink_time ext) (actual_windows boss p ws) st) := by
  unfold response_from_kitty
  rw [hres, hd]
  rfl

theorem response_text {boss : Boss} {p : Payload} {ws : List (Option Nat)} {tx : List Char}
    (hres : resolve_windows boss p = Except.ok ws) (hd : p.data = "text:".toList ++ tx)
    (ext : Ext) (window : Option Nat) (st : KState) :
    response_from_kitty ext boss window p st =
      do_default ext p.session_id (blink_time ext)
        (some (DecodedData.bytes (strBytes tx))) (actual_windows boss p ws) st := by
  unfold response_from_kitty
  rw [hres, hd]
  rfl

theorem clear_writes (boss : Boss) (sid : String) (st : KState) :
    (clear_unfocused_cursors boss sid st).writes = st.writes := by
  unfold clear_unfocused_cursors
  cases alookup sid st.sessions_map <;> rfl

theorem do_end_writes (boss : Boss) (sid : String) (actual : List Nat) (st : KState) :
    (do_end boss sid actual st).writes = st.writes := by
  unfold do_end
  dsimp
  rw [clear_writes]
  dsimp
  exact (cu_fields sid st).2.2.2

theorem do_start_writes (window : Option Nat) (sid : String) (iv : Nat) (actual : List Nat)
    (st : KState) :
    (do_start window sid iv actual st).writes = st.writes := by
  unfold do_start schedule_timer add_timer
  dsimp
  cases window <;> dsimp <;> exact (cu_fields sid st).2.2.2

theorem no_timers_of_fresh {st : KState} (h : InvT st) {sid : String}
    (hfresh : alookup sid st.sessions_map = none) : ∀ t ∈ st.timers, t.sid ≠ sid := by
  intro t ht hts
  have hl := h.2.2.2 t ht
  rw [hts] at hl
  unfold sessTid mapTid at hl
  rw [hfresh] at hl
  exact Option.noConfusion hl

theorem timers_for_eq_nil {st : KState} {sid : String}
    (h : ∀ t ∈ st.timers, t.sid ≠ sid) : timers_for sid st = [] := by
  unfold timers_for
  rw [List.filter_eq_nil_iff]
  intro t ht
  simp [h t ht]

theorem mem_foldl_insert_wid (ws : List Nat) : ∀ (l : List Nat) (w : Nat),
    w ∈ List.foldl insert_wid l ws ↔ w ∈ l ∨ w ∈ ws := by
  induction ws with
  | nil => intro l w; simp
  | cons a rest ih =>
    intro l w
    rw [List.foldl_cons, ih]
    unfold insert_wid
    by_cases ha : a ∈ l
    · rw [if_pos ha]
      constructor
      · rintro (h | h)
        · exact Or.inl h
        · exact Or.inr (List.mem_cons_of_mem a h)
      · rintro (h | h)
        · exact Or.inl h
        · rcases List.mem_cons.mp h with rfl | h
          · exact Or.inl ha
          · exact Or.inr h
    · rw [if_neg ha]
      simp only [List.mem_append, List.mem_singleton, List.mem_cons]
      tauto

theorem foldl_insert_filter (actual : List Nat) :
    (List.foldl insert_wid [] actual).filter (fun wid => !actual.contains wid) = [] := by
  rw [List.filter_eq_nil_iff]
  intro a ha
  have hm := (mem_foldl_insert_wid actual [] a).mp ha
  simp only [List.not_mem_nil, false_or] at hm
  simp [hm]

theorem filter_id_ne_of_lt {tms : List Timer} {n : Nat}
    (h : ∀ t ∈ tms, t.id < n) : tms.filter (fun t => t.id ≠ n) = tms := by
  rw [List.filter_eq_self]
  intro t ht
  have := h t ht
  simp
  omega

theorem do_start_fresh (window : Option Nat) (sid : String) (iv : Nat) (actual : List Nat)
    (st : KState) (hfresh : alookup sid st.sessions_map = none) :
    do_start window sid iv actual st =
      { sessions_map := st.sessions_map ++
          [(sid, { id := sid, window_ids := List.foldl insert_wid [] actual,
                   timer_id := st.next_timer })],
        timers := st.timers ++ [{ id := st.next_timer, sid := sid, interval := iv }],
        next_timer := st.next_timer + 1,
        flags := fun w => if w ∈ actual then 1 else st.flags w,
        close_hooks := st.close_hooks ++
          (match window with | some wid => [(wid, sid)] | none => []),
        writes := st.writes } := by
  unfold do_start schedule_timer add_timer create_or_update_session
  rw [hfresh]
  simp only [new_session]
  rw [if_neg (by simp)]
  cases window <;>
    simp [aupdate_append_absent, hfresh]

theorem do_end_unknown (boss : Boss) (sid : String) (actual : List Nat) (st : KState)
    (hfresh : alookup sid st.sessions_map = none) :
    do_end boss sid actual st =
      { st with flags := fun w => if w ∈ actual then 0 else st.flags w } := by
  unfold do_end create_or_update_session
  rw [hfresh]
  simp only [new_session]
  rw [if_neg (by simp)]
  dsimp
  rw [aupdate_append_absent _ _ _ _ hfresh]
  unfold clear_unfocused_cursors
  dsimp
  rw [alookup_append_of_none _ _ _ hfresh]
  simp only [alookup, if_pos rfl]
  rw [aremove_append_absent _ _ _ hfresh]
  simp

theorem do_end_known (boss : Boss) (sid : String) (actual : List Nat)
    (m : List (String × Session)) (tms : List Timer) (nt : Nat) (fl : Nat → Nat)
    (ch : List (Nat × String)) (wr : List (Nat × List Nat)) (wids : List Nat) (tid : Nat)
    (hfresh : alookup sid m = none) (htid : tid ≠ 0) :
    do_end boss sid actual
      { sessions_map := m ++ [(sid, { id := sid, window_ids := wids, timer_id := tid })],
        timers := tms, next_timer := nt, flags := fl, close_hooks := ch, writes := wr } =
      { sessions_map := m,
        timers := tms.filter (fun t => t.id ≠ tid),
        next_timer := nt,
        flags := fun w =>
          if w ∈ wids.filter (fun wid => !actual.contains wid) ∧ w ∈ boss.registry then 0
          else if w ∈ actual then 0 else fl w,
        close_hooks := ch,
        writes := wr } := by
  unfold do_end create_or_update_session
  rw [alookup_append_of_none _ _ _ hfresh]
  simp only [alookup, if_pos rfl]
  rw [if_pos (by simpa using htid)]
  dsimp
  rw [aupdate_append_absent _ _ _ _ hfresh]
  rw [aupdate_append_absent _ _ _ _ hfresh]
  unfold clear_unfocused_cursors
  dsimp
  rw [alookup_append_of_none _ _ _ hfresh]
  simp only [alookup, if_pos rfl, if_true]
  rw [aremove_append_absent _ _ _ hfresh]

/-- Concrete external collaborators for the witness instances. -/
def ext0 : Ext := ⟨fun _ => none, fun _ => none, fun _ _ => [], 0⟩

/-- Concrete registry with three windows 1, 2, 3 and window 1 active;
its predicates match nothing. -/
def boss0 : Boss := ⟨[1, 2, 3], some 1, [1, 2, 3], fun _ => [], fun _ => []⟩

/-- Empty initial host state (first fresh timer handle is 1). -/
def st0 : KState := ⟨[], [], 1, fun _ => 0, [], []⟩

/-- Payload carrying the start control for session s1 to all windows. -/
def p_start : Payload := ⟨"", "", true, false, "session:start".toList, "s1"⟩

/-- Payload with a tab-match predicate t and literal text data. -/
def p_tab : Payload := ⟨"", "t", false, false, "text:hi".toList, ""⟩

/-- Payload whose data carries the session tag with an empty control value. -/
def p_sess_empty : Payload := ⟨"", "", false, false, "session:".toList, ""⟩

/-- End-control payload for the unknown session id b. -/
def p_end_b : Payload := ⟨"", "", false, false, "session:end".toList, "b"⟩

/-- Host state in which window 1 shows the broadcast indicator of the
live session a. -/
def stA : KState :=
  ⟨[("a", ⟨"a", [1], 0⟩)], [], 1, fun w => if w = 1 then 1 else 0, [], []⟩

/-- C2: for every session id at most one expiry timer is outstanding at
any time — the timer well-formedness invariant `InvT` (which bounds the
outstanding timers per session id by one) is preserved by every request,
`start` and implicit refresh cancel the prior timer before scheduling a
new one as part of that preservation, and two consecutive successfully
resolved `start` controls for the same session id leave exactly one
outstanding timer for that id. -/
theorem single_timer_per_session (ext : Ext) (boss : Boss) (window : Option Nat)
    (p : Payload) (st : KState) (h : InvT st) :
    InvT (response_from_kitty ext boss window p st).2 ∧
    (∀ sid, (timers_for sid (response_from_kitty ext boss window p st).2).length ≤ 1) ∧
    (∀ (p2 : Payload) (window2 : Option Nat) (ws ws2 : List (Option Nat)),
      p.data = "session:start".toList → p2.data = "session:start".toList →
      p2.session_id = p.session_id →
      resolve_windows boss p = Except.ok ws → resolve_windows boss p2 = Except.ok ws2 →
      (timers_for p.session_id
        (response_from_kitty ext boss window2 p2
          (response_from_kitty ext boss window p st).2).2).length = 1) := by
  have hr := invT_response h ext boss window p
  refine ⟨hr, fun sid => invT_timers_le_one hr sid, ?_⟩
  intro p2 window2 ws ws2 hd1 hd2 hsid hres1 hres2
  rw [response_start hres1 hd1 ext window st]
  dsimp
  have h1 := (do_start_spec h window p.session_id (blink_time ext)
    (actual_windows boss p ws)).1
  rw [response_start hres2 hd2 ext window2 _]
  dsimp
  rw [hsid]
  rw [(do_start_spec h1 window2 p.session_id (blink_time ext)
    (actual_windows boss p2 ws2)).2]
  rfl

/-- C2 witness: from the empty state, two start controls for session s1
against the three-window registry leave exactly one outstanding timer. -/
theorem single_timer_per_session_witness :
    InvT st0 ∧
    (timers_for "s1"
      (response_from_kitty ext0 boss0 none p_start
        (response_from_kitty ext0 boss0 none p_start st0).2).2).length = 1 :=
  ⟨by decide,
    (single_timer_per_session ext0 boss0 none p_start st0 (by decide)).2.2
      p_start none [some 1, some 2, some 3] [some 1, some 2, some 3]
      rfl rfl rfl rfl rfl⟩

/-- C3: a start control for a fresh session id followed by an end
control for the same id with the same resolved target set raises no
error, leaves the indicator flag of every resolved target false,
removes the session from the live table, and leaves no outstanding
timer for that id. -/
theorem start_then_end_clears (ext : Ext) (boss : Boss) (window window2 : Option Nat)
    (p : Payload) (st : KState) (ws : List (Option Nat)) (h : InvT st)
    (hfresh : alookup p.session_id st.sessions_map = none)
    (hd : p.data = "session:start".toList)
    (hres : resolve_windows boss p = Except.ok ws) :
    (response_from_kitty ext boss window p st).1 = none ∧
    (response_from_kitty ext boss window2 { p with data := "session:end".toList }
        (response_from_kitty ext boss window p st).2).1 = none ∧
    (∀ w ∈ actual_windows boss p ws,
      ((response_from_kitty ext boss window2 { p with data := "session:end".toList }
        (response_from_kitty ext boss window p st).2).2).flags w = 0) ∧
    alookup p.session_id
      ((response_from_kitty ext boss window2 { p with data := "session:end".toList }
        (response_from_kitty ext boss window p st).2).2).sessions_map = none ∧
    timers_for p.session_id
      ((response_from_kitty ext boss window2 { p with data := "session:end".toList }
        (response_from_kitty ext boss window p st).2).2) = [] := by
  have hres2 : resolve_windows boss { p with data := "session:end".toList } =
      Except.ok ws := hres
  rw [response_start hres hd ext window st]
  dsimp only
  rw [do_start_fresh window p.session_id (blink_time ext) (actual_windows boss p ws)
    st hfresh]
  rw [response_end hres2 rfl ext window2 _]
  dsimp only
  have hactual : actual_windows boss { p with data := "session:end".toList } ws =
      actual_windows boss p ws := rfl
  rw [hactual]
  have hde := do_end_known boss p.session_id (actual_windows boss p ws) st.sessions_map
    (st.timers ++ [⟨st.next_timer, p.session_id, blink_time ext⟩])
    (st.next_timer + 1)
    (fun w => if w ∈ actual_windows boss p ws then 1 else st.flags w)
    (st.close_hooks ++ (match window with | some wid => [(wid, p.session_id)] | none => []))
    st.writes
    (List.foldl insert_wid [] (actual_windows boss p ws))
    st.next_timer hfresh (by have := h.1; omega)
  rw [hde]
  refine ⟨rfl, rfl, ?_, hfresh, ?_⟩
  · intro w hw
    dsimp
    rw [foldl_insert_filter]
    simp [hw]
  · have htf : (st.timers ++
        [Timer.mk st.next_timer p.session_id (blink_time ext)]).filter
          (fun t => t.id ≠ st.next_timer) = st.timers := by
      rw [List.filter_append]
      rw [filter_id_ne_of_lt (fun t ht => (h.2.1 t ht).2)]
      simp
    unfold timers_for
    dsimp
    rw [htf]
    have hnos := no_timers_of_fresh h hfresh
    rw [List.filter_eq_nil_iff]
    intro t ht
    simp [hnos t ht]

/-- C3 witness: starting then ending session s1 from the empty state
against the three-window registry removes the session and its timer. -/
theorem start_then_end_clears_witness :
    InvT st0 ∧ alookup "s1" st0.sessions_map = none ∧
    alookup "s1"
      ((response_from_kitty ext0 boss0 none { p_start with data := "session:end".toList }
        (response_from_kitty ext0 boss0 none p_start st0).2).2).sessions_map = none ∧
    timers_for "s1"
      ((response_from_kitty ext0 boss0 none { p_start with data := "session:end".toList }
        (response_from_kitty ext0 boss0 none p_start st0).2).2) = [] :=
  ⟨by decide, rfl,
    (start_then_end_clears ext0 boss0 none none p_start st0 [some 1, some 2, some 3]
      (by decide) rfl rfl rfl).2.2.2.1,
    (start_then_end_clears ext0 boss0 none none p_start st0 [some 1, some 2, some 3]
      (by decide) rfl rfl rfl).2.2.2.2⟩

/-- C4 counterexample: an end control for the unknown session id b,
resolving to the active window 1 which is a member of the live session
a, raises no error but clears window 1's indicator flag, so the state
is not exactly as before the call. -/
theorem end_unknown_counterexample :
    alookup "b" stA.sessions_map = none ∧
    stA.flags 1 = 1 ∧
    (response_from_kitty ext0 boss0 none p_end_b stA).1 = none ∧
    (response_from_kitty ext0 boss0 none p_end_b stA).2.flags 1 = 0 :=
  ⟨rfl, rfl, rfl, rfl⟩

/-- C4 amended: an end control for a session id not in the live session
table, when target resolution succeeds, raises no error and leaves the
session table, the outstanding timers, the fresh-timer counter, the
write log and the close hooks exactly as before; it does however set
the indicator flag of every resolved target to zero, leaving all other
targets' flags unchanged. -/
theorem end_unknown_amended (ext : Ext) (boss : Boss) (window : Option Nat) (p : Payload)
    (st : KState) (ws : List (Option Nat))
    (hfresh : alookup p.session_id st.sessions_map = none)
    (hd : p.data = "session:end".toList)
    (hres : resolve_windows boss p = Except.ok ws) :
    (response_from_kitty ext boss window p st).1 = none ∧
    ((response_from_kitty ext boss window p st).2).sessions_map = st.sessions_map ∧
    ((response_from_kitty ext boss window p st).2).timers = st.timers ∧
    ((response_from_kitty ext boss window p st).2).next_timer = st.next_timer ∧
    ((response_from_kitty ext boss window p st).2).writes = st.writes ∧
    ((response_from_kitty ext boss window p st).2).close_hooks = st.close_hooks ∧
    (∀ w, ((response_from_kitty ext boss window p st).2).flags w =
      if w ∈ actual_windows boss p ws then 0 else st.flags w) := by
  rw [response_end hres hd ext window st]
  dsimp
  rw [do_end_unknown boss p.session_id (actual_windows boss p ws) st hfresh]
  exact ⟨rfl, rfl, rfl, rfl, rfl, rfl, fun w => rfl⟩

/-- C4 amended witness: the end control for unknown id b on the state
with live session a leaves the table and timers unchanged while
clearing the resolved window's flag. -/
theorem end_unknown_amended_witness :
    alookup "b" stA.sessions_map = none ∧
    ((response_from_kitty ext0 boss0 none p_end_b stA).2).sessions_map = stA.sessions_map ∧
    ((response_from_kitty ext0 boss0 none p_end_b stA).2).timers = stA.timers :=
  ⟨rfl,
    (end_unknown_amended ext0 boss0 none p_end_b stA [some 1] rfl rfl rfl).2.1,
    (end_unknown_amended ext0 boss0 none p_end_b stA [some 1] rfl rfl rfl).2.2.1⟩

/-- C5: a request whose tab-match predicate matches zero tabs raises
MatchError naming the predicate and tabs, and returns the state
unchanged, so no write is performed for that request. -/
theorem no_tab_match_error (ext : Ext) (boss : Boss) (window : Option Nat) (p : Payload)
    (st : KState) (h1 : p.all = false) (h2 : p.match_tab ≠ "")
    (h3 : boss.match_tabs p.match_tab = []) :
    response_from_kitty ext boss window p st =
      (some (PyErr.matchError p.match_tab "tabs"), st) := by
  unfold response_from_kitty resolve_windows
  rw [h1]
  simp only [Bool.false_eq_true, if_false]
  rw [if_pos h2, if_pos h3]

/-- C5 witness: the tab predicate t matches no tab of the concrete
registry, so the request errors out with the state unchanged. -/
theorem no_tab_match_error_witness :
    p_tab.all = false ∧ p_tab.match_tab ≠ "" ∧ boss0.match_tabs p_tab.match_tab = [] ∧
    response_from_kitty ext0 boss0 none p_tab st0 =
      (some (PyErr.matchError "t" "tabs"), st0) :=
  ⟨rfl, by decide, rfl,
    no_tab_match_error ext0 boss0 none p_tab st0 rfl (by decide) rfl⟩

/-- C7: a payload whose data field is a session control (start or end)
produces no write to any target's input stream. -/
theorem session_control_no_write (ext : Ext) (boss : Boss) (window : Option Nat)
    (p : Payload) (st : KState)
    (h : p.data = "session:start".toList ∨ p.data = "session:end".toList) :
    ((response_from_kitty ext boss window p st).2).writes = st.writes := by
  cases hres : resolve_windows boss p with
  | error e =>
    unfold response_from_kitty
    rw [hres]
  | ok ws =>
    rcases h with hd | hd
    · rw [response_start hres hd ext window st]
      exact do_start_writes window p.session_id (blink_time ext)
        (actual_windows boss p ws) st
    · rw [response_end hres hd ext window st]
      exact do_end_writes boss p.session_id (actual_windows boss p ws) st

/-- C7 witness: the start control for session s1 against the concrete
registry writes nothing. -/
theorem session_control_no_write_witness :
    (p_start.data = "session:start".toList ∨ p_start.data = "session:end".toList) ∧
    ((response_from_kitty ext0 boss0 none p_start st0).2).writes = st0.writes :=
  ⟨Or.inl rfl,
    session_control_no_write ext0 boss0 none p_start st0 (Or.inl rfl)⟩

/-- C8: a payload tagged session with a control value that is neither
start nor end (here the empty value), resolved to a non-empty target
set, makes the handler fail with the unhandled error that models
Python's UnboundLocalError: the local holding the decoded data is read
without ever having been assigned. -/
theorem unknown_session_control_unbound :
    resolve_windows boss0 p_sess_empty = Except.ok [some 1] ∧
    actual_windows boss0 p_sess_empty [some 1] = [1] ∧
    (response_from_kitty ext0 boss0 none p_sess_empty st0).1 = some PyErr.unboundLocal :=
  ⟨rfl, rfl, rfl⟩

theorem dispatch_bytes (ext : Ext) (sid : String) (b : List Nat) :
    ∀ (l : List Nat) (st : KState),
      (dispatch_loop ext sid (some (DecodedData.bytes b)) l st).1 = none ∧
      (dispatch_loop ext sid (some (DecodedData.bytes b)) l st).2.writes =
        st.writes ++ l.map (fun w => (w, b)) := by
  intro l
  induction l with
  | nil => intro st; simp [dispatch_loop]
  | cons w rest ih =>
    intro st
    by_cases hsid : sid ≠ ""
    · simp only [dispatch_loop, if_pos hsid]
      obtain ⟨i1, i2⟩ := ih _
      refine ⟨i1, ?_⟩
      rw [i2]
      simp
    · simp only [dispatch_loop, if_neg hsid]
      obtain ⟨i1, i2⟩ := ih _
      refine ⟨i1, ?_⟩
      rw [i2]
      simp

theorem do_default_bytes (ext : Ext) (sid : String) (iv : Nat) (b : List Nat)
    (actual : List Nat) (st : KState) :
    (do_default ext sid iv (some (DecodedData.bytes b)) actual st).1 = none ∧
    (do_default ext sid iv (some (DecodedData.bytes b)) actual st).2.writes =
      st.writes ++ actual.map (fun w => (w, b)) := by
  unfold do_default
  dsimp
  split
  · obtain ⟨i1, i2⟩ := dispatch_bytes ext sid b actual
      (schedule_timer sid iv (create_or_update_session sid st).2)
    refine ⟨i1, ?_⟩
    rw [i2]
    have hw : (schedule_timer sid iv (create_or_update_session sid st).2).writes =
        st.writes := by
      unfold schedule_timer add_timer
      dsimp
      exact (cu_fields sid st).2.2.2
    rw [hw]
  · exact dispatch_bytes ext sid b actual st

/-- C6: with excludeActive set, the set of targets actually dispatched
to is exactly the resolved window list with the active window removed,
regardless of which resolution produced the list: each surviving window
receives exactly one write of the decoded bytes, in resolution order. -/
theorem exclude_active_dispatch (ext : Ext) (boss : Boss) (window : Option Nat)
    (p : Payload) (st : KState) (tx : List Char) (ws : List (Option Nat))
    (hx : p.exclude_active = true)
    (hres : resolve_windows boss p = Except.ok ws)
    (hd : p.data = "text:".toList ++ tx) :
    (response_from_kitty ext boss window p st).1 = none ∧
    ((response_from_kitty ext boss window p st).2).writes =
      st.writes ++
        ((ws.filterMap id).filter (fun w => !(boss.active_window == some w))).map
          (fun w => (w, strBytes tx)) := by
  rw [response_text hres hd ext window st]
  have hactual : actual_windows boss p ws =
      (ws.filterMap id).filter (fun w => !(boss.active_window == some w)) := by
    unfold actual_windows
    rw [hx]
    simp
  rw [hactual]
  exact do_default_bytes ext p.session_id (blink_time ext) (strBytes tx)
    ((ws.filterMap id).filter (fun w => !(boss.active_window == some w))) st

/-- Payload requesting all windows with excludeActive set and literal
text data hi. -/
def p_all_excl : Payload := ⟨"", "", true, true, "text:hi".toList, ""⟩

/-- C6 witness: all windows of the registry A(active), B, C with
excludeActive dispatches exactly to B and C. -/
theorem exclude_active_dispatch_witness :
    p_all_excl.exclude_active = true ∧
    (response_from_kitty ext0 boss0 none p_all_excl st0).1 = none ∧
    ((response_from_kitty ext0 boss0 none p_all_excl st0).2).writes =
      [(2, strBytes "hi".toList), (3, strBytes "hi".toList)] :=
  ⟨rfl,
    (exclude_active_dispatch ext0 boss0 none p_all_excl st0 "hi".toList
      [some 1, some 2, some 3] rfl rfl rfl).1,
    (exclude_active_dispatch ext0 boss0 none p_all_excl st0 "hi".toList
      [some 1, some 2, some 3] rfl rfl rfl).2⟩

theorem strBytes_append (a b : List Char) :
    strBytes (a ++ b) = strBytes a ++ strBytes b := by
  unfold strBytes
  rw [List.map_append, List.flatten_append]

theorem flatten_map_strBytes (ls : List (List Char)) :
    (ls.map strBytes).flatten = strBytes ls.flatten := by
  induction ls with
  | nil => simp [strBytes]
  | cons a r ih => simp [strBytes_append, ih]

theorem chunks_flatten (ret : Payload) :
    ∀ (n : Nat) (data : List Char), data.length ≤ n →
      ((chunks ret data).map (fun q => (partitionColon q.data).2)).flatten = data := by
  intro n
  induction n with
  | zero =>
    intro data hlen
    have hdata : data = [] := List.eq_nil_of_length_eq_zero (Nat.le_zero.mp hlen)
    subst hdata
    simp [chunks]
  | succ n ih =>
    intro data hlen
    match data with
    | [] => simp [chunks]
    | c :: cs =>
      simp only [chunks, List.map_cons, List.flatten_cons]
      rw [partitionColon_text]
      rw [ih (List.drop limit (c :: cs)) (by
        rw [List.length_drop]
        simp only [List.length_cons] at hlen ⊢
        simp [limit]
        omega)]
      exact List.take_append_drop limit (c :: cs)

theorem chunks_mem (ret : Payload) :
    ∀ (n : Nat) (data : List Char), data.length ≤ n →
      ∀ q ∈ chunks ret data, ∃ c : List Char,
        q.data = "text:".toList ++ c ∧ c.length ≤ limit ∧ c ≠ [] := by
  intro n
  induction n with
  | zero =>
    intro data hlen q hq
    have hdata : data = [] := List.eq_nil_of_length_eq_zero (Nat.le_zero.mp hlen)
    subst hdata
    simp [chunks] at hq
  | succ n ih =>
    intro data hlen q hq
    match data with
    | [] => simp [chunks] at hq
    | c :: cs =>
      simp only [chunks] at hq
      rcases List.mem_cons.mp hq with rfl | hq
      · refine ⟨List.take limit (c :: cs), rfl, ?_, ?_⟩
        · rw [List.length_take]
          exact min_le_left _ _
        · simp [List.take_eq_nil_iff, limit]
      · refine ih (List.drop limit (c :: cs)) ?_ q hq
        rw [List.length_drop]
        simp only [List.length_cons] at hlen ⊢
        simp [limit]
        omega

/-- C1: for literal text longer than the transport limit, the chunk
generator yields a non-empty sequence of text-tagged payloads, each
carrying at most 1024 and at least one text unit (code point), whose
decoded texts concatenate in order back to the escape-expanded input;
the same holds of the UTF-8 byte images, so no chunk boundary ever
falls inside the multi-byte encoding of a text unit. -/
theorem chunks_reassemble (ret : Payload) (data : List Char) (h : limit < data.length) :
    chunks ret data ≠ [] ∧
    (∀ q ∈ chunks ret data, ∃ c : List Char,
      q.data = "text:".toList ++ c ∧ (partitionColon q.data).1 = "text".toList ∧
      (partitionColon q.data).2 = c ∧ c.length ≤ limit ∧ c ≠ []) ∧
    ((chunks ret data).map (fun q => (partitionColon q.data).2)).flatten = data ∧
    ((chunks ret data).map (fun q => strBytes (partitionColon q.data).2)).flatten =
      strBytes data := by
  refine ⟨?_, ?_, chunks_flatten ret data.length data le_rfl, ?_⟩
  · cases data with
    | nil => simp [limit] at h
    | cons c cs => simp [chunks]
  · intro q hq
    obtain ⟨c, hc1, hc2, hc3⟩ := chunks_mem ret data.length data le_rfl q hq
    refine ⟨c, hc1, ?_, ?_, hc2, hc3⟩
    · rw [hc1, partitionColon_text]
    · rw [hc1, partitionColon_text]
  · rw [show (fun q : Payload => strBytes (partitionColon q.data).2) =
        strBytes ∘ (fun q : Payload => (partitionColon q.data).2) from rfl]
    rw [← List.map_map]
    rw [flatten_map_strBytes]
    rw [chunks_flatten ret data.length data le_rfl]

/-- C1 witness: 1025 copies of the letter a exceed the limit and
reassemble from the produced chunks. -/
theorem chunks_reassemble_witness :
    limit < (List.replicate 1025 'a').length ∧
    ((chunks p_start (List.replicate 1025 'a')).map
      (fun q => (partitionColon q.data).2)).flatten = List.replicate 1025 'a' :=
  ⟨by rw [List.length_replicate]; norm_num [limit],
    (chunks_reassemble p_start (List.replicate 1025 'a')
      (by rw [List.length_replicate]; norm_num [limit])).2.2.1⟩

theorem pipe_tty_loop_pres (ret : Payload) :
    ∀ (reads : List (List Char)) (q : Payload), q ∈ pipe_tty_loop ret reads →
      q.exclude_active = ret.exclude_active := by
  intro reads
  induction reads with
  | nil => intro q hq; simp [pipe_tty_loop] at hq
  | cons d rest ih =>
    intro q hq
    simp only [pipe_tty_loop] at hq
    by_cases h1 : d = []
    · rw [if_pos h1] at hq
      simp at hq
    · rw [if_neg h1] at hq
      by_cases h2 : (Char.ofNat 4) ∈ d
      · rw [if_pos h2] at hq
        rw [List.mem_singleton.mp hq]
      · rw [if_neg h2] at hq
        rcases List.mem_cons.mp hq with rfl | hq
        · rfl
        · exact ih q hq

/-- C9: when the stdin source is selected and stdin is an interactive
terminal, every chunk payload the encoder emits carries
excludeActive = true, whatever value the caller supplied in the
template payload. -/
theorem tty_pipe_forces_exclude_active (ret : Payload) (tty_reads : List (List Char))
    (stdin_reads : List (List Nat)) :
    ∀ q ∈ pipe true ret tty_reads stdin_reads, q.exclude_active = true := by
  intro q hq
  unfold pipe at hq
  rw [if_pos rfl] at hq
  exact pipe_tty_loop_pres { ret with exclude_active := true } tty_reads q hq

/-- C9 witness: a caller payload with excludeActive false still emits
its tty chunk with excludeActive true. -/
theorem tty_pipe_forces_exclude_active_witness :
    p_tab.exclude_active = false ∧
    ({ p_tab with exclude_active := true, data := "text:h".toList } : Payload) ∈
      pipe true p_tab [['h']] [] ∧
    ({ p_tab with exclude_active := true, data := "text:h".toList } : Payload).exclude_active
      = true :=
  ⟨rfl, by decide,
    tty_pipe_forces_exclude_active p_tab [['h']] [] _ (by decide)⟩

theorem rstripComma_append_comma (l : List Char) :
    rstripComma (l ++ [',']) = rstripComma l := by
  unfold rstripComma
  rw [List.reverse_append]
  simp [List.dropWhile_cons]

theorem rstripComma_last_ne (l : List Char) (c : Char) (hc : c ≠ ',') :
    rstripComma (l ++ [c]) = l ++ [c] := by
  unfold rstripComma
  rw [List.reverse_append]
  simp [List.dropWhile_cons, hc]

theorem join_sep_ends (sep : List Char) :
    ∀ (vs : List (List Char)), vs ≠ [] → (∀ x ∈ vs, ∃ y, x = y ++ ['f']) →
      ∃ z, join_sep sep vs = z ++ ['f'] := by
  intro vs
  induction vs with
  | nil => intro h; exact absurd rfl h
  | cons a rest ih =>
    intro _hne hall
    cases rest with
    | nil =>
      obtain ⟨y, hy⟩ := hall a (by simp)
      exact ⟨y, by simp [join_sep, hy]⟩
    | cons b r =>
      obtain ⟨z, hz⟩ := ih (by simp) (fun x hx => hall x (List.mem_cons_of_mem a hx))
      refine ⟨a ++ sep ++ z, ?_⟩
      simp only [join_sep]
      rw [hz, List.append_assoc, List.append_assoc, List.append_assoc]

/-- C10: for every line prefix the generated lookup table has exactly
16 lines; line i carries the 16 formatted values with indices
16·i .. 16·i + 15 joined by commas, a comma closing each of the first
15 lines, and the final line ends without a comma. -/
theorem generate_srgb_lut_spec (fmt : Nat → List Char) (lpfx : List Char) :
    (generate_srgb_lut fmt lpfx).length = 16 ∧
    generate_srgb_lut fmt lpfx =
      (List.range 15).map (fun i =>
        lpfx ++ join_sep (", ".toList)
          ((((List.range 256).map (fun j => fmt j ++ ['f'])).drop (i * 16)).take 16) ++ [','])
      ++ [lpfx ++ join_sep (", ".toList)
          ((((List.range 256).map (fun j => fmt j ++ ['f'])).drop (15 * 16)).take 16)] ∧
    (∀ i, i < 15 → ∃ z, (generate_srgb_lut fmt lpfx).getD i [] = z ++ [',']) ∧
    (∀ z, (generate_srgb_lut fmt lpfx).getD 15 [] ≠ z ++ [',']) := by
  have hvals : ∀ x ∈ (((List.range 256).map (fun j => fmt j ++ ['f'])).drop (15 * 16)).take 16,
      ∃ y, x = y ++ ['f'] := by
    intro x hx
    have hx2 : x ∈ (List.range 256).map (fun j => fmt j ++ ['f']) :=
      ((List.take_sublist _ _).trans (List.drop_sublist _ _)).subset hx
    obtain ⟨j, -, rfl⟩ := List.mem_map.mp hx2
    exact ⟨fmt j, rfl⟩
  have hne : (((List.range 256).map (fun j => fmt j ++ ['f'])).drop (15 * 16)).take 16 ≠ [] := by
    intro hcon
    have hlen := congrArg List.length hcon
    simp [List.length_take, List.length_drop] at hlen
  obtain ⟨z0, hz0⟩ := join_sep_ends (", ".toList) _ hne hvals
  have hmain : generate_srgb_lut fmt lpfx =
      (List.range 15).map (fun i =>
        lpfx ++ join_sep (", ".toList)
          ((((List.range 256).map (fun j => fmt j ++ ['f'])).drop (i * 16)).take 16) ++ [','])
      ++ [lpfx ++ join_sep (", ".toList)
          ((((List.range 256).map (fun j => fmt j ++ ['f'])).drop (15 * 16)).take 16)] := by
    unfold generate_srgb_lut
    dsimp only
    have hr16 : List.range 16 = List.range 15 ++ [15] := List.range_succ 15
    rw [hr16, List.map_append]
    simp only [List.map_cons, List.map_nil]
    rw [List.dropLast_concat, List.getLastD_concat]
    rw [hz0]
    rw [rstripComma_append_comma]
    rw [← List.append_assoc]
    rw [rstripComma_last_ne (lpfx ++ z0) 'f' (by decide)]
  refine ⟨by rw [hmain]; simp, hmain, ?_, ?_⟩
  · intro i hi
    rw [hmain]
    rw [List.getD_append _ _ _ _ (by simpa using hi)]
    rw [List.getD_eq_getElem?_getD, List.getElem?_map, List.getElem?_range hi]
    simp only [Option.map_some', Option.getD_some]
    exact ⟨lpfx ++ join_sep (", ".toList)
      ((((List.range 256).map (fun j => fmt j ++ ['f'])).drop (i * 16)).take 16), rfl⟩
  · intro z hcon
    rw [hmain] at hcon
    rw [List.getD_append_right _ _ _ _ (by simp)] at hcon
    simp only [List.length_map, List.length_range, Nat.sub_self,
      List.getD_cons_zero] at hcon
    have h1 : (lpfx ++ join_sep (", ".toList)
        ((((List.range 256).map (fun j => fmt j ++ ['f'])).drop (15 * 16)).take 16)).getLast?
        = some ',' := by
      rw [hcon]
      exact List.getLast?_concat _
    rw [hz0, ← List.append_assoc, List.getLast?_concat] at h1
    simp at h1

/-- Line-value formatter fixture (a constant decimal rendering). -/
def fmt0 : Nat → List Char := fun _ => "0.00000".toList

/-- C10 witness: line 2 of the concrete table ends with a comma. -/
theorem generate_srgb_lut_spec_witness :
    (2 : Nat) < 15 ∧
    ∃ z, (generate_srgb_lut fmt0 "    ".toList).getD 2 [] = z ++ [','] :=
  ⟨by decide, (generate_srgb_lut_spec fmt0 "    ".toList).2.2.1 2 (by decide)⟩

end Kitty
